import Mathlib

/-!
A shallow embedding of the retry engine (`src/retry.ts`) and the API client
(`src/client.ts`) of the `opencode-puter-auth` repository, together with
theorems settling the specification claims about them.

Modelling conventions:
* JavaScript numbers used for delays and backoff factors are modelled as `ℚ`
  (all values appearing in the code and the claims are exactly representable
  as double-precision floats, and the arithmetic performed on them is exact
  in the ranges of interest); `Math.round` is modelled as `fun q => ⌊q + 1/2⌋`
  (round half towards positive infinity), `Math.random()` results are passed
  in explicitly as a `rand` argument.
* A JavaScript thrown value is a `JsValue`: either an `Error` carrying a
  message, or a non-`Error` value carrying its `String(...)` conversion.
* `async` operations are functions from the attempt index to an
  `Except JsValue α`; sleeping is modelled by recording the slept delays.
* Strings fed to the stream decoder are modelled as `List Char` (the output
  of `TextDecoder`, so a byte-level split of the wire stream corresponds to
  a `List Char`-level split of the decoded text for the ASCII inputs of the
  claims); `JSON.parse` composed with the cast to `PuterChatStreamChunk` is
  an abstract parameter `parse : List Char → Option γ`, and the truthiness
  test `chunk.done` is an abstract parameter `isDone : γ → Bool`.
-/

/-- A JavaScript thrown value: an `Error` object with its `message`, or any
non-`Error` value together with its `String(...)` conversion. -/
inductive JsValue : Type where
  | error : String → JsValue
  | nonError : String → JsValue
deriving DecidableEq

/-- The `message` property of a `JsValue` (for a non-`Error` value, the
string conversion that `new Error(String(v))` would store). -/
def JsValue.message : JsValue → String
  | JsValue.error m => m
  | JsValue.nonError r => r

/-- `lastError = error instanceof Error ? error : new Error(String(error))`
from `withRetry` in `src/retry.ts`. -/
def toError : JsValue → JsValue
  | JsValue.error m => JsValue.error m
  | JsValue.nonError r => JsValue.error r

/-- Boolean prefix test on character lists. -/
def hasPrefixCh : List Char → List Char → Bool
  | [], _ => true
  | _ :: _, [] => false
  | a :: as, b :: bs => a == b && hasPrefixCh as bs

/-- Boolean contiguous-substring test on character lists. -/
def hasInfixCh (sub : List Char) (l : List Char) : Bool :=
  hasPrefixCh sub l ||
    match l with
    | [] => false
    | _ :: rest => hasInfixCh sub rest

/-- `s.includes(sub)` from JavaScript: `sub` occurs contiguously in `s`. -/
def hasInfix (s sub : String) : Bool :=
  hasInfixCh sub.toList s.toList

/-- `s.toLowerCase()` from JavaScript, on the ASCII range: lowercase every
character (structurally, so that it evaluates inside the kernel). -/
def jsToLower (s : String) : String :=
  ⟨s.data.map Char.toLower⟩

/-- The resolved shape of `DEFAULT_RETRY_OPTIONS` from `src/retry.ts`. -/
structure RetryDefaultsT where
  maxRetries : Nat
  initialDelay : ℚ
  maxDelay : ℚ
  backoffFactor : ℚ
  jitter : Bool
  retryableStatuses : List Nat
deriving DecidableEq

/-- `DEFAULT_RETRY_OPTIONS` from `src/retry.ts`. -/
def DEFAULT_RETRY_OPTIONS : RetryDefaultsT :=
  ⟨3, 1000, 30000, 2, true, [429, 500, 502, 503, 504]⟩

/-- `isRetryableError(error, retryableStatuses)` from `src/retry.ts`.
An error is retryable when it is an `Error` whose lowercased message
contains `(N)` or `status N` for some `N` in `retryableStatuses`, or one of
the fixed transient-network markers. -/
def isRetryableError (error : JsValue) (retryableStatuses : List Nat) : Bool :=
  match error with
  | JsValue.error msg =>
    let message := jsToLower msg
    (retryableStatuses.any fun status =>
      hasInfix message ("(" ++ toString status ++ ")") ||
      hasInfix message ("status " ++ toString status)) ||
    (hasInfix message "timeout" ||
     hasInfix message "econnreset" ||
     hasInfix message "econnrefused" ||
     hasInfix message "network" ||
     hasInfix message "socket hang up" ||
     hasInfix message "rate limit" ||
     hasInfix message "too many requests")
  | JsValue.nonError _ => false

/-- `Math.round`: round half towards positive infinity. -/
def jsRound (q : ℚ) : ℤ := ⌊q + 1 / 2⌋

/-- The options record accepted by `calculateDelay` in `src/retry.ts`
(each field optional, resolved against `DEFAULT_RETRY_OPTIONS`). -/
structure DelayOptions where
  initialDelay : Option ℚ
  maxDelay : Option ℚ
  backoffFactor : Option ℚ
  jitter : Option Bool
deriving DecidableEq

/-- `calculateDelay(attempt, options)` from `src/retry.ts`; `rand` is the
`Math.random()` sample used when jitter is enabled. -/
def calculateDelay (attempt : Nat) (options : DelayOptions) (rand : ℚ) : ℤ :=
  let initialDelay := options.initialDelay.getD DEFAULT_RETRY_OPTIONS.initialDelay
  let maxDelay := options.maxDelay.getD DEFAULT_RETRY_OPTIONS.maxDelay
  let backoffFactor := options.backoffFactor.getD DEFAULT_RETRY_OPTIONS.backoffFactor
  let jitter := options.jitter.getD DEFAULT_RETRY_OPTIONS.jitter
  let baseDelay := initialDelay * backoffFactor ^ attempt
  let cappedDelay := min baseDelay maxDelay
  if jitter then
    let jitterRange := cappedDelay * (1 / 4 : ℚ)
    let randomJitter := (rand - 1 / 2) * 2 * jitterRange
    max 0 (jsRound (cappedDelay + randomJitter))
  else
    jsRound cappedDelay

/-- The `RetryOptions` interface of `src/retry.ts`: every field optional;
`onRetry` is modelled by whether a callback was supplied. -/
structure RetryOptions where
  maxRetries : Option Nat
  initialDelay : Option ℚ
  maxDelay : Option ℚ
  backoffFactor : Option ℚ
  jitter : Option Bool
  retryableStatuses : Option (List Nat)
  onRetry : Bool
deriving DecidableEq

/-- The destructuring-with-defaults performed at the top of `withRetry`. -/
structure ResolvedRetryOptions where
  maxRetries : Nat
  initialDelay : ℚ
  maxDelay : ℚ
  backoffFactor : ℚ
  jitter : Bool
  retryableStatuses : List Nat
  hasOnRetry : Bool
deriving DecidableEq

/-- Resolve a `RetryOptions` against `DEFAULT_RETRY_OPTIONS`, as the
destructuring at the top of `withRetry` in `src/retry.ts` does. -/
def resolveRetryOptions (o : RetryOptions) : ResolvedRetryOptions :=
  ⟨o.maxRetries.getD DEFAULT_RETRY_OPTIONS.maxRetries,
   o.initialDelay.getD DEFAULT_RETRY_OPTIONS.initialDelay,
   o.maxDelay.getD DEFAULT_RETRY_OPTIONS.maxDelay,
   o.backoffFactor.getD DEFAULT_RETRY_OPTIONS.backoffFactor,
   o.jitter.getD DEFAULT_RETRY_OPTIONS.jitter,
   o.retryableStatuses.getD DEFAULT_RETRY_OPTIONS.retryableStatuses,
   o.onRetry⟩

/-- Outcome of a `withRetry` run: a success value, a value thrown from
inside the attempt loop, or the trailing `RetryError` constructed after the
loop (carrying its `attempts` count and the last error's message). -/
inductive RetryResult (α : Type) : Type where
  | ok : α → RetryResult α
  | thrown : JsValue → RetryResult α
  | retryError : Nat → String → RetryResult α
deriving DecidableEq

/-- A complete `withRetry` run: its outcome, how many times the operation
was invoked, the delays slept, and the `onRetry(attempt, error, delay)`
invocations in order. -/
structure RetryRun (α : Type) : Type where
  result : RetryResult α
  calls : Nat
  delays : List ℤ
  onRetryEvents : List (Nat × JsValue × ℤ)
deriving DecidableEq

/-- The attempt loop of `withRetry` in `src/retry.ts`, lines 185-218:
`for (let attempt = 0; attempt <= maxRetries; attempt++)`, with the caught
error converted by `toError`, the last-attempt / retryability check, the
delay computation, the optional `onRetry` callback and the sleep. The
`fuel` argument is the structural bound on the remaining loop iterations
(`withRetry` supplies `maxRetries + 1`, the iteration count of the loop);
when the loop stops iterating — the fuel is spent or the loop condition
`attempt <= maxRetries` fails — the trailing `RetryError` of lines 213-217
is produced. -/
def withRetryGo {α : Type} (op : Nat → Except JsValue α) (o : ResolvedRetryOptions)
    (rand : Nat → ℚ) : (fuel attempt calls : Nat) → (events : List (Nat × JsValue × ℤ)) →
    (delays : List ℤ) → (lastMsg : String) → RetryRun α
  | 0, _, calls, events, delays, lastMsg =>
    ⟨RetryResult.retryError (o.maxRetries + 1) lastMsg, calls, delays, events⟩
  | fuel + 1, attempt, calls, events, delays, lastMsg =>
    if attempt ≤ o.maxRetries then
      match op attempt with
      | Except.ok v => ⟨RetryResult.ok v, calls + 1, delays, events⟩
      | Except.error e =>
        if !(attempt == o.maxRetries) && isRetryableError e o.retryableStatuses then
          let delay := calculateDelay attempt
            ⟨some o.initialDelay, some o.maxDelay, some o.backoffFactor, some o.jitter⟩
            (rand attempt)
          withRetryGo op o rand fuel (attempt + 1) (calls + 1)
            (if o.hasOnRetry then events ++ [(attempt + 1, toError e, delay)] else events)
            (delays ++ [delay]) (toError e).message
        else
          ⟨RetryResult.thrown (toError e), calls + 1, delays, events⟩
    else
      ⟨RetryResult.retryError (o.maxRetries + 1) lastMsg, calls, delays, events⟩

/-- `withRetry(operation, options)` from `src/retry.ts`: resolve the
options and run the attempt loop starting from attempt 0 with
`lastError = new Error('Unknown error')`. -/
def withRetry {α : Type} (op : Nat → Except JsValue α) (options : RetryOptions)
    (rand : Nat → ℚ) : RetryRun α :=
  withRetryGo op (resolveRetryOptions options) rand
    ((resolveRetryOptions options).maxRetries + 1) 0 0 [] [] "Unknown error"

/-- The `PuterConfig` shape used by `PuterClient` (`src/client.ts`): every
field optional. -/
structure PuterConfig where
  api_base_url : Option String
  api_timeout_ms : Option ℚ
  max_retries : Option Nat
  retry_delay_ms : Option ℚ
  debug : Option Bool
deriving DecidableEq

/-- `DEFAULT_API_URL` from `src/client.ts`. -/
def DEFAULT_API_URL : String := "https://api.puter.com"

/-- `DEFAULT_TIMEOUT` from `src/client.ts`. -/
def DEFAULT_TIMEOUT : ℚ := 120000

/-- `DEFAULT_MAX_RETRIES` from `src/client.ts`. -/
def DEFAULT_MAX_RETRIES : Nat := 3

/-- `DEFAULT_RETRY_DELAY` from `src/client.ts`. -/
def DEFAULT_RETRY_DELAY : ℚ := 1000

/-- The state of a `PuterClient`: the auth token, the (shared, mutable)
config object, and the `debug` flag that the constructor copies out of the
config with `config.debug ?? false`. -/
structure PuterClient where
  authToken : String
  config : PuterConfig
  debug : Bool
deriving DecidableEq

/-- The `PuterClient` constructor (`src/client.ts` lines 28-32): stores the
token and the config object, and snapshots `config.debug ?? false` into
`this.debug`. -/
def PuterClient.make (authToken : String) (config : PuterConfig) : PuterClient :=
  ⟨authToken, config, config.debug.getD false⟩

/-- Post-construction mutation of the fields of the config object held by
the client (in JavaScript, assignments through the shared reference held in
`this.config`); `this.debug` is a separate copied field and is unaffected. -/
def PuterClient.withConfig (c : PuterClient) (config : PuterConfig) : PuterClient :=
  ⟨c.authToken, config, c.debug⟩

/-- The `apiUrl` getter: `this.config.api_base_url || DEFAULT_API_URL`
(the `||` treats the empty string as falsy). -/
def PuterClient.apiUrl (c : PuterClient) : String :=
  match c.config.api_base_url with
  | some u => if u = "" then DEFAULT_API_URL else u
  | none => DEFAULT_API_URL

/-- The `timeout` getter: `this.config.api_timeout_ms || DEFAULT_TIMEOUT`
(the `||` treats `0` as falsy). -/
def PuterClient.timeout (c : PuterClient) : ℚ :=
  match c.config.api_timeout_ms with
  | some t => if t = 0 then DEFAULT_TIMEOUT else t
  | none => DEFAULT_TIMEOUT

/-- The `retryOptions` getter (`src/client.ts` lines 37-61): resolves
`max_retries` and `retry_delay_ms` with `??`, and supplies an `onRetry`
callback exactly when `this.debug` is set. -/
def PuterClient.retryOptions (c : PuterClient) : RetryOptions :=
  ⟨some (c.config.max_retries.getD DEFAULT_MAX_RETRIES),
   some (c.config.retry_delay_ms.getD DEFAULT_RETRY_DELAY),
   none, none, none, none,
   c.debug⟩

/-- `ModelInfo` from the model catalog (`src/client.ts`). -/
structure PuterModelInfo where
  id : String
  name : String
  provider : String
  context_window : Nat
  max_output_tokens : Nat
  supports_streaming : Bool
  supports_tools : Bool
  supports_vision : Bool
deriving DecidableEq

/-- `getDefaultModels()` (`src/client.ts` lines 253-271): the fixed
hardcoded fallback catalog. -/
def PuterClient.getDefaultModels : List PuterModelInfo :=
  [⟨"claude-opus-4-5", "Claude Opus 4.5", "anthropic", 200000, 64000, true, true, true⟩,
   ⟨"claude-sonnet-4-5", "Claude Sonnet 4.5", "anthropic", 200000, 64000, true, true, true⟩,
   ⟨"claude-sonnet-4", "Claude Sonnet 4", "anthropic", 200000, 64000, true, true, true⟩,
   ⟨"claude-haiku-4-5", "Claude Haiku 4.5", "anthropic", 200000, 64000, true, true, true⟩,
   ⟨"gpt-5-nano", "GPT-5 Nano", "openai", 128000, 16384, true, true, true⟩,
   ⟨"gpt-5.2", "GPT-5.2", "openai", 128000, 32768, true, true, true⟩,
   ⟨"gpt-4o", "GPT-4o", "openai", 128000, 16384, true, true, true⟩,
   ⟨"o3-mini", "o3-mini", "openai", 128000, 32768, true, true, false⟩,
   ⟨"gemini-2.5-pro", "Gemini 2.5 Pro", "google", 1000000, 65536, true, true, true⟩,
   ⟨"gemini-2.5-flash", "Gemini 2.5 Flash", "google", 1000000, 65536, true, true, true⟩]

/-- `listModels()` (`src/client.ts` lines 224-248): run the fetch-and-parse
attempt (abstracted as `op`, one invocation per retry attempt, producing
the `data.models || data || []` list on success) through `withRetry` with
the client's retry options; any failure escaping `withRetry` is caught and
replaced by the default catalog. -/
def PuterClient.listModels (c : PuterClient) (op : Nat → Except JsValue (List PuterModelInfo))
    (rand : Nat → ℚ) : List PuterModelInfo :=
  match (withRetry op c.retryOptions rand).result with
  | RetryResult.ok models => models
  | RetryResult.thrown _ => PuterClient.getDefaultModels
  | RetryResult.retryError _ _ => PuterClient.getDefaultModels

/-- The `message` object of a chat response, with its `content` string. -/
structure ChatResponseMessage where
  content : String
deriving DecidableEq

/-- A chat response as consumed by `testConnection`: `message` may be
absent (the `?.` in `response.message?.content`). -/
structure PuterChatResponse where
  message : Option ChatResponseMessage
deriving DecidableEq

/-- `testConnection()` (`src/client.ts` lines 336-346): run the minimal
chat call (whose per-attempt network outcome is abstracted as `op`, driven
through `withRetry` by `makeRequest`) and return the truthiness of
`response.message?.content`; every failure is caught and turned into
`false`. -/
def PuterClient.testConnection (c : PuterClient) (op : Nat → Except JsValue PuterChatResponse)
    (rand : Nat → ℚ) : Bool :=
  match (withRetry op c.retryOptions rand).result with
  | RetryResult.ok r =>
    match r.message with
    | some m => !(m.content == "")
    | none => false
  | RetryResult.thrown _ => false
  | RetryResult.retryError _ _ => false

/-- `!line.trim()` from JavaScript: the line consists only of whitespace. -/
def isBlank (l : List Char) : Bool := l.all fun c => c.isWhitespace

/-- `buffer.split('\n')` from JavaScript: split a character list on the
newline character; always returns a non-empty list whose last element is
the text after the final newline. -/
def splitNl : List Char → List (List Char)
  | [] => [[]]
  | c :: cs =>
    if c = '\n' then [] :: splitNl cs
    else
      match splitNl cs with
      | [] => [[c]]
      | p :: ps => (c :: p) :: ps

/-- The inner `for (const line of lines)` loop of `chatStream`
(`src/client.ts` lines 183-199): blank lines are skipped, lines that fail
to parse are skipped, a parsed chunk is emitted, and a chunk with
`done` truthy returns from the generator. The boolean records whether such
a `done` chunk was hit. -/
def processLines {γ : Type} (parse : List Char → Option γ) (isDone : γ → Bool) :
    List (List Char) → List γ × Bool
  | [] => ([], false)
  | line :: rest =>
    if isBlank line then processLines parse isDone rest
    else
      match parse line with
      | none => processLines parse isDone rest
      | some chunk =>
        if isDone chunk then ([chunk], true)
        else
          let r := processLines parse isDone rest
          (chunk :: r.1, r.2)

/-- The trailing-buffer handling of `chatStream` (`src/client.ts` lines
202-209): after the transport closes, a non-blank remaining buffer is
parsed best-effort and emitted if it parses. -/
def tailFlush {γ : Type} (parse : List Char → Option γ) (buffer : List Char) : List γ :=
  if isBlank buffer then []
  else
    match parse buffer with
    | some chunk => [chunk]
    | none => []

/-- The `while (true)` read loop of `chatStream` (`src/client.ts` lines
172-209): each arrival chunk is appended to the buffer, the buffer is split
on newlines, the last fragment is re-buffered, the complete lines are fed
through the inner loop, and a `done` chunk ends the stream discarding
everything else; when the reader reports end of stream the remaining
buffer is flushed. -/
def runStream {γ : Type} (parse : List Char → Option γ) (isDone : γ → Bool) :
    List (List Char) → List Char → List γ
  | [], buffer => tailFlush parse buffer
  | chunk :: rest, buffer =>
    let parts := splitNl (buffer ++ chunk)
    let newBuffer := parts.getLastD []
    let lines := parts.dropLast
    let r := processLines parse isDone lines
    if r.2 then r.1
    else r.1 ++ runStream parse isDone rest newBuffer

/-- The full decoding behaviour of `chatStream` on a list of decoded-text
arrival chunks, starting from the empty buffer. -/
def chatStreamDecode {γ : Type} (parse : List Char → Option γ) (isDone : γ → Bool)
    (chunks : List (List Char)) : List γ :=
  runStream parse isDone chunks []

/-- Reference single-pass decoder used to reason about `runStream`: consume
the whole decoded text character by character, keeping the current partial
line in `acc`; a newline completes a line, and the end of input flushes the
remaining buffer. -/
def decodeLoop {γ : Type} (parse : List Char → Option γ) (isDone : γ → Bool) :
    List Char → List Char → List γ
  | [], acc => tailFlush parse acc
  | ch :: rest, acc =>
    if ch = '\n' then
      if isBlank acc then decodeLoop parse isDone rest []
      else
        match parse acc with
        | none => decodeLoop parse isDone rest []
        | some chunk =>
          if isDone chunk then [chunk]
          else chunk :: decodeLoop parse isDone rest []
    else decodeLoop parse isDone rest (acc ++ [ch])

/-- Newline-terminated concatenation of a list of lines, as they appear on
the wire before any trailing partial line. -/
def linesJoin (ls : List (List Char)) : List Char :=
  (ls.map fun l => l ++ ['\n']).flatten

/-- The fixed transient-network markers named by the specification. -/
def specTransientMarkers : List String :=
  ["timeout", "econnreset", "econnrefused", "network", "socket hang up",
   "rate limit", "too many requests"]

/-- Modelled from the spec: the specification's classification rule for
retryable errors, written as the spec states it — an `Error` whose message,
compared case-insensitively, contains a parenthesized or `status N` code
for some `N` in `retryableStatuses`, or contains one of the fixed
transient-network markers; every non-`Error` value is non-retryable. -/
def retryableSpec (error : JsValue) (retryableStatuses : List Nat) : Bool :=
  match error with
  | JsValue.nonError _ => false
  | JsValue.error msg =>
    let m := jsToLower msg
    (retryableStatuses.any fun n =>
      hasInfix m ("(" ++ toString n ++ ")") || hasInfix m ("status " ++ toString n)) ||
    specTransientMarkers.any fun marker => hasInfix m marker

/-! ## Lemmas about the retry engine -/

/-- A retryable value is necessarily an `Error`, and `toError` leaves it
unchanged. -/
theorem retryable_isError {e : JsValue} {ss : List Nat}
    (h : isRetryableError e ss = true) : toError e = e ∧ ∃ m, e = JsValue.error m := by
  cases e with
  | error m => exact ⟨rfl, m, rfl⟩
  | nonError r => simp [isRetryableError] at h

/-- Any success value produced by the attempt loop comes from an invocation
of the operation. -/
theorem withRetryGo_ok_origin {α : Type} (op : Nat → Except JsValue α)
    (o : ResolvedRetryOptions) (rand : Nat → ℚ) :
    ∀ (fuel attempt calls : Nat) (events : List (Nat × JsValue × ℤ)) (delays : List ℤ)
      (lastMsg : String) (v : α),
      (withRetryGo op o rand fuel attempt calls events delays lastMsg).result
          = RetryResult.ok v →
      ∃ i, op i = Except.ok v := by
  intro fuel
  induction fuel with
  | zero =>
    intro attempt calls events delays lastMsg v h
    simp [withRetryGo] at h
  | succ fuel ih =>
    intro attempt calls events delays lastMsg v h
    rw [withRetryGo] at h
    split at h
    · split at h
      · next w hop =>
        cases h
        exact ⟨attempt, hop⟩
      · next e hop =>
        split at h
        · exact ih _ _ _ _ _ _ h
        · simp at h
    · simp at h

/-- As long as the fuel covers the remaining loop iterations and the loop
condition still holds, the attempt loop never produces the trailing
`RetryError`: it always returns a success or throws from inside the loop. -/
theorem withRetryGo_ne_retryError {α : Type} (op : Nat → Except JsValue α)
    (o : ResolvedRetryOptions) (rand : Nat → ℚ) :
    ∀ (fuel attempt calls : Nat) (events : List (Nat × JsValue × ℤ)) (delays : List ℤ)
      (lastMsg : String) (a : Nat) (m : String),
      attempt ≤ o.maxRetries → o.maxRetries + 1 - attempt ≤ fuel →
      (withRetryGo op o rand fuel attempt calls events delays lastMsg).result
          ≠ RetryResult.retryError a m := by
  intro fuel
  induction fuel with
  | zero =>
    intro attempt calls events delays lastMsg a m hle hf
    omega
  | succ fuel ih =>
    intro attempt calls events delays lastMsg a m hle hf h
    rw [withRetryGo] at h
    rw [if_pos hle] at h
    split at h
    · next w hop => simp at h
    · next e hop =>
      split at h
      · next hs =>
        have hne : attempt ≠ o.maxRetries := by
          simp only [Bool.and_eq_true, Bool.not_eq_true', beq_eq_false_iff_ne, ne_eq] at hs
          exact hs.1
        exact ih _ _ _ _ _ a m (by omega) (by omega) h
      · simp at h

/-- Behaviour of the attempt loop when every invocation fails and every
failure before the last allowed attempt is retryable: the loop walks
through all remaining attempts and finally throws the converted last
error, having invoked the operation once per remaining attempt. -/
theorem withRetryGo_all_errors {α : Type} (op : Nat → Except JsValue α)
    (o : ResolvedRetryOptions) (rand : Nat → ℚ) (err : Nat → JsValue)
    (hop : ∀ i, op i = Except.error (err i))
    (hr : ∀ i, i < o.maxRetries → isRetryableError (err i) o.retryableStatuses = true) :
    ∀ (fuel attempt calls : Nat) (events : List (Nat × JsValue × ℤ)) (delays : List ℤ)
      (lastMsg : String),
      attempt ≤ o.maxRetries → o.maxRetries + 1 - attempt ≤ fuel →
      (withRetryGo op o rand fuel attempt calls events delays lastMsg).result
          = RetryResult.thrown (toError (err o.maxRetries))
      ∧ (withRetryGo op o rand fuel attempt calls events delays lastMsg).calls
          = calls + (o.maxRetries - attempt) + 1 := by
  intro fuel
  induction fuel with
  | zero =>
    intro attempt calls events delays lastMsg hle hf
    omega
  | succ fuel ih =>
    intro attempt calls events delays lastMsg hle hf
    rw [withRetryGo, if_pos hle, hop attempt]
    dsimp only
    by_cases hend : attempt = o.maxRetries
    · subst hend
      rw [if_neg]
      · exact ⟨rfl, by simp⟩
      · simp
    · rw [if_pos]
      · have h := ih (attempt + 1) (calls + 1)
          (if o.hasOnRetry then
            events ++ [(attempt + 1, toError (err attempt),
              calculateDelay attempt
                ⟨some o.initialDelay, some o.maxDelay, some o.backoffFactor, some o.jitter⟩
                (rand attempt))]
           else events)
          (delays ++ [calculateDelay attempt
            ⟨some o.initialDelay, some o.maxDelay, some o.backoffFactor, some o.jitter⟩
            (rand attempt)])
          (toError (err attempt)).message (by omega) (by omega)
        refine ⟨h.1, ?_⟩
        rw [h.2]
        omega
      · simp only [Bool.and_eq_true, Bool.not_eq_true', beq_eq_false_iff_ne, ne_eq]
        exact ⟨hend, hr attempt (by omega)⟩

/-! ## Claim theorems about the retry engine -/

/-- C10: for every operation, options and randomness source, `withRetry`
either returns a success value produced by some invocation of the
operation, or throws a value from inside the attempt loop; the trailing
`RetryError` constructed after the loop is unreachable, so `withRetry`
never throws a `RetryError` of its own. -/
theorem withRetry_no_retryError {α : Type} (op : Nat → Except JsValue α)
    (options : RetryOptions) (rand : Nat → ℚ) :
    ((∃ v, (withRetry op options rand).result = RetryResult.ok v ∧ ∃ i, op i = Except.ok v)
      ∨ ∃ e, (withRetry op options rand).result = RetryResult.thrown e)
    ∧ ∀ (a : Nat) (m : String),
        (withRetry op options rand).result ≠ RetryResult.retryError a m := by
  have hne : ∀ (a : Nat) (m : String),
      (withRetry op options rand).result ≠ RetryResult.retryError a m := by
    intro a m
    exact withRetryGo_ne_retryError op (resolveRetryOptions options) rand _ 0 0 [] []
      "Unknown error" a m (Nat.zero_le _) (by omega)
  refine ⟨?_, hne⟩
  cases hres : (withRetry op options rand).result with
  | ok v =>
    exact Or.inl ⟨v, rfl, withRetryGo_ok_origin op (resolveRetryOptions options) rand
      _ 0 0 [] [] "Unknown error" v hres⟩
  | thrown e => exact Or.inr ⟨e, rfl⟩
  | retryError a m => exact absurd hres (hne a m)

/-- C2: when every invocation of the operation fails with a retryable
error, `withRetry` invokes the operation exactly `maxRetries + 1` times and
the error it finally throws is the last underlying error itself (which is
necessarily an `Error`, so in particular its message is the last
underlying error's message). -/
theorem withRetry_retryable_exhaustion {α : Type} (op : Nat → Except JsValue α)
    (options : RetryOptions) (rand : Nat → ℚ) (err : Nat → JsValue)
    (hop : ∀ i, op i = Except.error (err i))
    (hr : ∀ i, isRetryableError (err i) (resolveRetryOptions options).retryableStatuses = true) :
    (withRetry op options rand).result
        = RetryResult.thrown (err (resolveRetryOptions options).maxRetries)
    ∧ (withRetry op options rand).calls = (resolveRetryOptions options).maxRetries + 1
    ∧ ∃ m, err (resolveRetryOptions options).maxRetries = JsValue.error m := by
  have h := withRetryGo_all_errors op (resolveRetryOptions options) rand err hop
    (fun i _ => hr i) ((resolveRetryOptions options).maxRetries + 1) 0 0 [] []
    "Unknown error" (Nat.zero_le _) (by omega)
  have hte := retryable_isError (hr (resolveRetryOptions options).maxRetries)
  refine ⟨?_, ?_, hte.2⟩
  · rw [withRetry, h.1, hte.1]
  · rw [withRetry, h.2]
    omega

/-- Witness for C2: with `maxRetries = 2` and an operation failing every
time with a retryable `(500)` error, the operation runs 3 times and the
final thrown error is the last underlying error. -/
theorem withRetry_retryable_exhaustion_witness :
    (withRetry
        (fun _ => (Except.error (JsValue.error "HTTP error (500): boom") : Except JsValue Unit))
        ⟨some 2, none, none, none, none, none, false⟩ (fun _ => 0)).result
      = RetryResult.thrown (JsValue.error "HTTP error (500): boom")
    ∧ (withRetry
        (fun _ => (Except.error (JsValue.error "HTTP error (500): boom") : Except JsValue Unit))
        ⟨some 2, none, none, none, none, none, false⟩ (fun _ => 0)).calls = 3 := by
  have hret : isRetryableError (JsValue.error "HTTP error (500): boom")
      [429, 500, 502, 503, 504] = true := by decide
  have h := withRetry_retryable_exhaustion
    (fun _ => (Except.error (JsValue.error "HTTP error (500): boom") : Except JsValue Unit))
    ⟨some 2, none, none, none, none, none, false⟩ (fun _ => 0)
    (fun _ => JsValue.error "HTTP error (500): boom")
    (fun _ => rfl) (fun _ => hret)
  exact ⟨h.1, h.2.1⟩

/-- Counterexample to C1O wording of C3: an operation that throws the raw
string `"boom"` (a non-`Error` value, hence non-retryable) makes
`withRetry` throw `new Error("boom")` — a substituted wrapper object, not
the original thrown value. -/
theorem withRetry_wraps_nonError_cex :
    (withRetry (fun _ => (Except.error (JsValue.nonError "boom") : Except JsValue Unit))
        ⟨none, none, none, none, none, none, false⟩ (fun _ => 0)).result
      = RetryResult.thrown (JsValue.error "boom")
    ∧ (withRetry (fun _ => (Except.error (JsValue.nonError "boom") : Except JsValue Unit))
        ⟨none, none, none, none, none, none, false⟩ (fun _ => 0)).calls = 1
    ∧ JsValue.error "boom" ≠ JsValue.nonError "boom" := by
  refine ⟨by decide, by decide, by decide⟩

/-- C3 (amended): `withRetry` never retries a non-retryable or
last-attempt failure, and throws `toError` of the offending value — the
original error object exactly when that value is an `Error`, while a
non-`Error` thrown value (raw string, `null`, ...) is replaced by an
`Error` wrapper built from its string conversion. Concretely: (1) a
first-attempt failure that is not classified as retryable is thrown after
a single invocation; (2) when every attempt fails and every failure before
the last allowed attempt is retryable, the failure on the last allowed
attempt — whatever its classification, retryable or not — is propagated
with no further invocation, after exactly `maxRetries + 1` calls; (3) the
thrown `toError` value is the original thrown value exactly when that
value is an `Error`. -/
theorem withRetry_nonretryable_single_call {α : Type} (op : Nat → Except JsValue α)
    (options : RetryOptions) (rand : Nat → ℚ) (e : JsValue) (err : Nat → JsValue) :
    (op 0 = Except.error e →
      isRetryableError e (resolveRetryOptions options).retryableStatuses = false →
      (withRetry op options rand).result = RetryResult.thrown (toError e)
      ∧ (withRetry op options rand).calls = 1)
    ∧ ((∀ i, op i = Except.error (err i)) →
      (∀ i, i < (resolveRetryOptions options).maxRetries →
        isRetryableError (err i) (resolveRetryOptions options).retryableStatuses = true) →
      (withRetry op options rand).result
        = RetryResult.thrown (toError (err (resolveRetryOptions options).maxRetries))
      ∧ (withRetry op options rand).calls = (resolveRetryOptions options).maxRetries + 1)
    ∧ (toError e = e ↔ ∃ m, e = JsValue.error m) := by
  have hiff : toError e = e ↔ ∃ m, e = JsValue.error m := by
    cases e with
    | error m => simp [toError]
    | nonError r => simp [toError]
  refine ⟨?_, ?_, hiff⟩
  · intro hop hnr
    have hrun : withRetry op options rand
        = ⟨RetryResult.thrown (toError e), 0 + 1, [], []⟩ := by
      rw [withRetry, withRetryGo, if_pos (Nat.zero_le _), hop]
      dsimp only
      rw [if_neg (by simp [hnr])]
    exact ⟨by rw [hrun], by rw [hrun]⟩
  · intro hop hr
    have h := withRetryGo_all_errors op (resolveRetryOptions options) rand err hop hr
      ((resolveRetryOptions options).maxRetries + 1) 0 0 [] [] "Unknown error"
      (Nat.zero_le _) (by omega)
    refine ⟨by rw [withRetry, h.1], ?_⟩
    rw [withRetry, h.2]
    omega

/-- Witness for C3 (amended): a non-retryable `(401)` failure on the first
attempt is thrown after a single invocation, unchanged since it is an
`Error`; and with `maxRetries = 2`, two retryable `(500)` failures
followed by a `(401)` failure on the last allowed attempt make `withRetry`
throw that last error after exactly 3 invocations. -/
theorem withRetry_nonretryable_single_call_witness :
    ((withRetry
        (fun _ => (Except.error (JsValue.error "Puter API error (401): Unauthorized")
          : Except JsValue Unit))
        ⟨none, none, none, none, none, none, false⟩ (fun _ => 0)).result
      = RetryResult.thrown (JsValue.error "Puter API error (401): Unauthorized")
    ∧ (withRetry
        (fun _ => (Except.error (JsValue.error "Puter API error (401): Unauthorized")
          : Except JsValue Unit))
        ⟨none, none, none, none, none, none, false⟩ (fun _ => 0)).calls = 1)
    ∧ ((withRetry
        (fun i => (Except.error (if i < 2 then JsValue.error "HTTP error (500): boom"
          else JsValue.error "Puter API error (401): Unauthorized")
          : Except JsValue Unit))
        ⟨some 2, none, none, none, none, none, false⟩ (fun _ => 0)).result
      = RetryResult.thrown (JsValue.error "Puter API error (401): Unauthorized")
    ∧ (withRetry
        (fun i => (Except.error (if i < 2 then JsValue.error "HTTP error (500): boom"
          else JsValue.error "Puter API error (401): Unauthorized")
          : Except JsValue Unit))
        ⟨some 2, none, none, none, none, none, false⟩ (fun _ => 0)).calls = 3) := by
  have hnr : isRetryableError (JsValue.error "Puter API error (401): Unauthorized")
      [429, 500, 502, 503, 504] = false := by decide
  have hret : isRetryableError (JsValue.error "HTTP error (500): boom")
      [429, 500, 502, 503, 504] = true := by decide
  constructor
  · have h := withRetry_nonretryable_single_call
      (fun _ => (Except.error (JsValue.error "Puter API error (401): Unauthorized")
        : Except JsValue Unit))
      ⟨none, none, none, none, none, none, false⟩ (fun _ => 0)
      (JsValue.error "Puter API error (401): Unauthorized")
      (fun _ => JsValue.error "Puter API error (401): Unauthorized")
    exact h.1 rfl hnr
  · have h := withRetry_nonretryable_single_call
      (fun i => (Except.error (if i < 2 then JsValue.error "HTTP error (500): boom"
        else JsValue.error "Puter API error (401): Unauthorized")
        : Except JsValue Unit))
      ⟨some 2, none, none, none, none, none, false⟩ (fun _ => 0)
      (JsValue.error "Puter API error (401): Unauthorized")
      (fun i => if i < 2 then JsValue.error "HTTP error (500): boom"
        else JsValue.error "Puter API error (401): Unauthorized")
    refine h.2.1 (fun _ => rfl) (fun i hi => ?_)
    have hi2 : i < 2 := hi
    rw [if_pos hi2]
    exact hret

/-- C6: `isRetryableError` agrees everywhere with the specification's
classification rule (`retryableSpec`), and on the concrete messages named
by the claim it returns `true` for `(429)`, `(500)`, `timeout`,
`ECONNRESET` and `rate limit` messages, and `false` for `(401)` and
`(404)` messages and for every listed non-`Error` input. -/
theorem isRetryableError_characterization :
    (∀ (e : JsValue) (ss : List Nat), isRetryableError e ss = retryableSpec e ss)
    ∧ isRetryableError (JsValue.error "Puter API error (429): slow down")
        DEFAULT_RETRY_OPTIONS.retryableStatuses = true
    ∧ isRetryableError (JsValue.error "Puter API error (500): server blew up")
        DEFAULT_RETRY_OPTIONS.retryableStatuses = true
    ∧ isRetryableError (JsValue.error "Request timeout after 120000 ms")
        DEFAULT_RETRY_OPTIONS.retryableStatuses = true
    ∧ isRetryableError (JsValue.error "read ECONNRESET")
        DEFAULT_RETRY_OPTIONS.retryableStatuses = true
    ∧ isRetryableError (JsValue.error "Rate limit exceeded")
        DEFAULT_RETRY_OPTIONS.retryableStatuses = true
    ∧ isRetryableError (JsValue.error "Puter API error (401): Unauthorized")
        DEFAULT_RETRY_OPTIONS.retryableStatuses = false
    ∧ isRetryableError (JsValue.error "Puter API error (404): Not Found")
        DEFAULT_RETRY_OPTIONS.retryableStatuses = false
    ∧ isRetryableError (JsValue.nonError "null")
        DEFAULT_RETRY_OPTIONS.retryableStatuses = false
    ∧ isRetryableError (JsValue.nonError "undefined")
        DEFAULT_RETRY_OPTIONS.retryableStatuses = false
    ∧ isRetryableError (JsValue.nonError "a raw failure string")
        DEFAULT_RETRY_OPTIONS.retryableStatuses = false := by
  refine ⟨?_, by decide, by decide, by decide, by decide, by decide, by decide,
    by decide, by decide, by decide, by decide⟩
  intro e ss
  cases e with
  | nonError r => rfl
  | error msg =>
    simp [isRetryableError, retryableSpec, specTransientMarkers, Bool.or_assoc]

/-- Counterexample to C7: with jitter disabled, `initialDelay = 1`,
`backoffFactor = 3/2` (the exactly-representable double `1.5`),
`maxDelay = 30000` and `attempt = 1`, the code returns
`Math.round(min(1 * 1.5^1, 30000)) = Math.round(1.5) = 2`, which is not
the exact minimum `1.5`. -/
theorem calculateDelay_rounds_cex :
    calculateDelay 1 ⟨some 1, some 30000, some (3 / 2), some false⟩ 0 = 2
    ∧ ((2 : ℚ) ≠ min ((1 : ℚ) * (3 / 2) ^ 1) 30000) := by
  constructor
  · show jsRound (min ((1 : ℚ) * (3 / 2) ^ 1) 30000) = 2
    rw [jsRound]
    norm_num [min_def]
  · norm_num [min_def]

/-- C7 (amended): for every `attempt ≥ 0`, with jitter disabled,
`calculateDelay(attempt, ⟨initialDelay = d, maxDelay = m, backoffFactor = f⟩)`
equals `round(min(d * f^attempt, m))` — deterministically, whatever the
random sample — and when `d`, `m` and `f` are integers (as all the default
and configured values are) the rounding is the identity, so the result is
`min(d * f^attempt, m)` exactly. -/
theorem calculateDelay_no_jitter_formula :
    (∀ (attempt : Nat) (d m f r : ℚ),
      calculateDelay attempt ⟨some d, some m, some f, some false⟩ r
        = jsRound (min (d * f ^ attempt) m))
    ∧ ∀ (attempt d m f : Nat) (r : ℚ),
      calculateDelay attempt ⟨some (d : ℚ), some (m : ℚ), some (f : ℚ), some false⟩ r
        = ((min (d * f ^ attempt) m : ℕ) : ℤ) := by
  have h1 : ∀ (attempt : Nat) (d m f r : ℚ),
      calculateDelay attempt ⟨some d, some m, some f, some false⟩ r
        = jsRound (min (d * f ^ attempt) m) := fun _ _ _ _ _ => rfl
  refine ⟨h1, ?_⟩
  intro attempt d m f r
  rw [h1]
  have hcast : ((d : ℚ) * (f : ℚ) ^ attempt) = ((d * f ^ attempt : ℕ) : ℚ) := by
    push_cast
    ring
  rw [hcast, ← Nat.cast_min, jsRound]
  have hz : (((min (d * f ^ attempt) m : ℕ) : ℚ))
      = (((min (d * f ^ attempt) m : ℕ) : ℤ) : ℚ) := by push_cast; ring
  rw [hz, Int.floor_int_add]
  norm_num

/-! ## Claim theorems about the API client -/

/-- Counterexample to C5: construct a client with `debug` set to `false`,
then change the config object's `debug` field to `true`; the
`retryOptions` getter used by every subsequent call still supplies no
`onRetry` callback, because the constructor snapshotted
`this.debug = config.debug ?? false` — the new value is not observed. -/
theorem debug_not_call_time_cex :
    ((PuterClient.make "token" ⟨none, none, none, none, some false⟩).withConfig
        ⟨none, none, none, none, some true⟩).retryOptions.onRetry = false
    ∧ (⟨none, none, none, none, some true⟩ : PuterConfig).debug.getD false = true :=
  ⟨rfl, rfl⟩

/-- C5 (amended): `api_base_url`, `api_timeout_ms`, `max_retries` and
`retry_delay_ms` are resolved against their fixed defaults at call time —
after any post-construction change of the config object's fields, every
getter observes exactly what a freshly constructed client holding the new
config would observe — but `debug` is captured at construction:
`this.debug` keeps its constructor-time value `config.debug ?? false`
regardless of later changes to the config object. -/
theorem config_call_time_resolution (c : PuterClient) (cfg : PuterConfig) :
    (c.withConfig cfg).apiUrl = (PuterClient.make c.authToken cfg).apiUrl
    ∧ (c.withConfig cfg).timeout = (PuterClient.make c.authToken cfg).timeout
    ∧ (c.withConfig cfg).retryOptions.maxRetries
        = some (cfg.max_retries.getD DEFAULT_MAX_RETRIES)
    ∧ (c.withConfig cfg).retryOptions.initialDelay
        = some (cfg.retry_delay_ms.getD DEFAULT_RETRY_DELAY)
    ∧ (c.withConfig cfg).debug = c.debug
    ∧ (PuterClient.make c.authToken cfg).debug = cfg.debug.getD false :=
  ⟨rfl, rfl, rfl, rfl, rfl, rfl⟩

/-- C8: `listModels` never propagates a failure: whenever every attempt of
the underlying fetch fails, it returns the fixed hardcoded default
catalog, which is non-empty and contains an entry with id
`claude-opus-4-5` and an entry with provider `anthropic`. -/
theorem listModels_fallback (c : PuterClient)
    (op : Nat → Except JsValue (List PuterModelInfo)) (rand : Nat → ℚ)
    (hfail : ∀ i, ∃ e, op i = Except.error e) :
    c.listModels op rand = PuterClient.getDefaultModels
    ∧ PuterClient.getDefaultModels ≠ []
    ∧ (∃ mi ∈ PuterClient.getDefaultModels, mi.id = "claude-opus-4-5")
    ∧ ∃ mi ∈ PuterClient.getDefaultModels, mi.provider = "anthropic" := by
  refine ⟨?_, by decide, by decide, by decide⟩
  rw [PuterClient.listModels]
  cases hres : (withRetry op c.retryOptions rand).result with
  | ok v =>
    obtain ⟨i, hi⟩ := withRetryGo_ok_origin op (resolveRetryOptions c.retryOptions) rand
      _ 0 0 [] [] "Unknown error" v hres
    obtain ⟨e, he⟩ := hfail i
    rw [he] at hi
    exact absurd hi (by simp)
  | thrown e => rfl
  | retryError a m => rfl

/-- Witness for C8: a fetch failing every attempt with a network error
makes `listModels` return the default catalog. -/
theorem listModels_fallback_witness :
    (PuterClient.make "token" ⟨none, none, none, none, none⟩).listModels
        (fun _ => Except.error (JsValue.error "network down")) (fun _ => 0)
      = PuterClient.getDefaultModels :=
  (listModels_fallback (PuterClient.make "token" ⟨none, none, none, none, none⟩)
    (fun _ => Except.error (JsValue.error "network down")) (fun _ => 0)
    (fun _ => ⟨JsValue.error "network down", rfl⟩)).1

/-- C9: `testConnection` never propagates a failure: it returns `true`
exactly when the retried chat call succeeds with a response carrying
non-empty assistant message content, and it returns `false` whenever the
call throws (including after all retries are exhausted). -/
theorem testConnection_spec (c : PuterClient)
    (op : Nat → Except JsValue PuterChatResponse) (rand : Nat → ℚ) :
    (c.testConnection op rand = true
      ↔ ∃ r, (withRetry op c.retryOptions rand).result = RetryResult.ok r
          ∧ ∃ msg, r.message = some msg ∧ msg.content ≠ "")
    ∧ ∀ e, (withRetry op c.retryOptions rand).result = RetryResult.thrown e
        → c.testConnection op rand = false := by
  constructor
  · rw [PuterClient.testConnection]
    cases hres : (withRetry op c.retryOptions rand).result with
    | ok r =>
      cases hm : r.message with
      | none => simp [hm]
      | some msg => simp [hm]
    | thrown e => simp
    | retryError a m => simp
  · intro e he
    rw [PuterClient.testConnection, he]

/-! ## Lemmas about the stream decoder -/

/-- `split` always returns at least one fragment. -/
theorem splitNl_ne_nil : ∀ l : List Char, splitNl l ≠ [] := by
  intro l
  cases l with
  | nil => simp [splitNl]
  | cons c cs =>
    rw [splitNl]
    split
    · simp
    · split
      · simp
      · simp

/-- Splitting a newline-free text yields that text as the only fragment. -/
theorem splitNl_no_newline : ∀ l : List Char, '\n' ∉ l → splitNl l = [l] := by
  intro l
  induction l with
  | nil => intro _; rfl
  | cons c cs ih =>
    intro h
    rw [List.mem_cons, not_or] at h
    rw [splitNl, if_neg (fun hc => h.1 hc.symm), ih h.2]

/-- Splitting text that starts with a newline-free fragment followed by a
newline peels that fragment off as the first complete line. -/
theorem splitNl_append_newline : ∀ (b : List Char) (r : List Char), '\n' ∉ b →
    splitNl (b ++ '\n' :: r) = b :: splitNl r := by
  intro b
  induction b with
  | nil =>
    intro r _
    rw [List.nil_append, splitNl, if_pos rfl]
  | cons c cs ih =>
    intro r h
    rw [List.mem_cons, not_or] at h
    rw [List.cons_append, splitNl, if_neg (fun hc => h.1 hc.symm), ih r h.2]

/-- The final fragment of a split never contains a newline. -/
theorem splitNl_getLastD : ∀ l : List Char, '\n' ∉ (splitNl l).getLastD [] := by
  intro l
  induction l with
  | nil => simp [splitNl]
  | cons c cs ih =>
    rw [splitNl]
    by_cases hc : c = '\n'
    · rw [if_pos hc, List.getLastD_cons]
      cases hsp : splitNl cs with
      | nil => exact absurd hsp (splitNl_ne_nil cs)
      | cons p ps =>
        rw [hsp, List.getLastD_cons] at ih
        rw [List.getLastD_cons]
        exact ih
    · rw [if_neg hc]
      cases hsp : splitNl cs with
      | nil => exact absurd hsp (splitNl_ne_nil cs)
      | cons p ps =>
        rw [hsp, List.getLastD_cons] at ih
        cases ps with
        | nil =>
          simp only [List.getLastD_cons, List.getLastD_nil] at ih ⊢
          rw [List.mem_cons, not_or]
          exact ⟨fun hx => hc hx.symm, ih⟩
        | cons q qs =>
          rw [List.getLastD_cons]
          exact ih

/-- A blank line is skipped by the inner line loop. -/
theorem processLines_cons_blank {γ : Type} (parse : List Char → Option γ) (isDone : γ → Bool)
    (line : List Char) (rest : List (List Char)) (hb : isBlank line = true) :
    processLines parse isDone (line :: rest) = processLines parse isDone rest := by
  rw [processLines, if_pos hb]

/-- A line that fails to parse is skipped by the inner line loop. -/
theorem processLines_cons_none {γ : Type} (parse : List Char → Option γ) (isDone : γ → Bool)
    (line : List Char) (rest : List (List Char)) (hb : isBlank line = false)
    (hp : parse line = none) :
    processLines parse isDone (line :: rest) = processLines parse isDone rest := by
  rw [processLines, if_neg (by rw [hb]; exact Bool.false_ne_true), hp]

/-- A line parsing to a `done` chunk ends the loop with just that chunk. -/
theorem processLines_cons_done {γ : Type} (parse : List Char → Option γ) (isDone : γ → Bool)
    (line : List Char) (rest : List (List Char)) {c : γ} (hb : isBlank line = false)
    (hp : parse line = some c) (hd : isDone c = true) :
    processLines parse isDone (line :: rest) = ([c], true) := by
  rw [processLines, if_neg (by rw [hb]; exact Bool.false_ne_true), hp]
  dsimp only
  rw [if_pos hd]

/-- A line parsing to a non-`done` chunk is emitted and the loop goes on. -/
theorem processLines_cons_chunk {γ : Type} (parse : List Char → Option γ) (isDone : γ → Bool)
    (line : List Char) (rest : List (List Char)) {c : γ} (hb : isBlank line = false)
    (hp : parse line = some c) (hd : isDone c = false) :
    processLines parse isDone (line :: rest)
      = (c :: (processLines parse isDone rest).1, (processLines parse isDone rest).2) := by
  rw [processLines, if_neg (by rw [hb]; exact Bool.false_ne_true), hp]
  dsimp only
  rw [if_neg (by rw [hd]; exact Bool.false_ne_true)]

/-- A newline completing a blank line is skipped by the reference decoder. -/
theorem decodeLoop_newline_blank {γ : Type} (parse : List Char → Option γ) (isDone : γ → Bool)
    (rest acc : List Char) (hb : isBlank acc = true) :
    decodeLoop parse isDone ('\n' :: rest) acc = decodeLoop parse isDone rest [] := by
  rw [decodeLoop, if_pos rfl, if_pos hb]

/-- A newline completing an unparseable line is skipped by the reference
decoder. -/
theorem decodeLoop_newline_none {γ : Type} (parse : List Char → Option γ) (isDone : γ → Bool)
    (rest acc : List Char) (hb : isBlank acc = false) (hp : parse acc = none) :
    decodeLoop parse isDone ('\n' :: rest) acc = decodeLoop parse isDone rest [] := by
  rw [decodeLoop, if_pos rfl, if_neg (by rw [hb]; exact Bool.false_ne_true), hp]

/-- A newline completing a line that parses to a `done` chunk ends the
reference decoder with just that chunk. -/
theorem decodeLoop_newline_done {γ : Type} (parse : List Char → Option γ) (isDone : γ → Bool)
    (rest acc : List Char) {c : γ} (hb : isBlank acc = false) (hp : parse acc = some c)
    (hd : isDone c = true) :
    decodeLoop parse isDone ('\n' :: rest) acc = [c] := by
  rw [decodeLoop, if_pos rfl, if_neg (by rw [hb]; exact Bool.false_ne_true), hp]
  dsimp only
  rw [if_pos hd]

/-- A newline completing a line that parses to a non-`done` chunk emits it
and the reference decoder goes on with an empty line buffer. -/
theorem decodeLoop_newline_chunk {γ : Type} (parse : List Char → Option γ) (isDone : γ → Bool)
    (rest acc : List Char) {c : γ} (hb : isBlank acc = false) (hp : parse acc = some c)
    (hd : isDone c = false) :
    decodeLoop parse isDone ('\n' :: rest) acc
      = c :: decodeLoop parse isDone rest [] := by
  rw [decodeLoop, if_pos rfl, if_neg (by rw [hb]; exact Bool.false_ne_true), hp]
  dsimp only
  rw [if_neg (by rw [hd]; exact Bool.false_ne_true)]

/-- Newline-free input text only extends the current line buffer of the
reference decoder. -/
theorem decodeLoop_append_no_newline {γ : Type} (parse : List Char → Option γ)
    (isDone : γ → Bool) :
    ∀ (l r acc : List Char), '\n' ∉ l →
      decodeLoop parse isDone (l ++ r) acc = decodeLoop parse isDone r (acc ++ l) := by
  intro l
  induction l with
  | nil =>
    intro r acc _
    rw [List.nil_append, List.append_nil]
  | cons c cs ih =>
    intro r acc h
    rw [List.mem_cons, not_or] at h
    rw [List.cons_append, decodeLoop, if_neg (fun hc => h.1 hc.symm), ih r (acc ++ [c]) h.2]
    simp

/-- The default value of `getLastD` is irrelevant for non-empty lists. -/
theorem getLastD_irrel {α : Type} (l : List α) (a b : α) (h : l ≠ []) :
    l.getLastD a = l.getLastD b := by
  cases l with
  | nil => exact absurd rfl h
  | cons x xs => rw [List.getLastD_cons, List.getLastD_cons]

/-- Feeding one arrival chunk `t` into the reference decoder whose current
line buffer `buf` is newline-free is the same as what one iteration of the
`chatStream` read loop does: split `buf ++ t` into fragments, run the
inner line loop on all complete lines, stop if a `done` chunk was hit, and
otherwise continue with the final fragment as the new buffer. -/
theorem decodeLoop_chunk {γ : Type} (parse : List Char → Option γ) (isDone : γ → Bool)
    (cont : List Char) :
    ∀ (t buf : List Char), '\n' ∉ buf →
      decodeLoop parse isDone (t ++ cont) buf
        = (if (processLines parse isDone (splitNl (buf ++ t)).dropLast).2 then
            (processLines parse isDone (splitNl (buf ++ t)).dropLast).1
          else
            (processLines parse isDone (splitNl (buf ++ t)).dropLast).1
              ++ decodeLoop parse isDone cont ((splitNl (buf ++ t)).getLastD [])) := by
  intro t
  induction t with
  | nil =>
    intro buf hbuf
    rw [List.nil_append, List.append_nil, splitNl_no_newline buf hbuf]
    simp [processLines]
  | cons ch t' ih =>
    intro buf hbuf
    by_cases hch : ch = '\n'
    · subst hch
      have iher := ih [] (by simp)
      rw [List.nil_append] at iher
      rw [List.cons_append, splitNl_append_newline buf t' hbuf]
      cases hsp : splitNl t' with
      | nil => exact absurd hsp (splitNl_ne_nil t')
      | cons p ps =>
        rw [hsp] at iher
        rw [List.dropLast_cons₂, List.getLastD_cons,
          getLastD_irrel (p :: ps) buf [] (by simp)]
        cases hb : isBlank buf with
        | true =>
          rw [decodeLoop_newline_blank parse isDone (t' ++ cont) buf hb,
            processLines_cons_blank parse isDone buf _ hb]
          exact iher
        | false =>
          cases hp : parse buf with
          | none =>
            rw [decodeLoop_newline_none parse isDone (t' ++ cont) buf hb hp,
              processLines_cons_none parse isDone buf _ hb hp]
            exact iher
          | some c =>
            cases hd : isDone c with
            | true =>
              rw [decodeLoop_newline_done parse isDone (t' ++ cont) buf hb hp hd,
                processLines_cons_done parse isDone buf _ hb hp hd]
              simp
            | false =>
              rw [decodeLoop_newline_chunk parse isDone (t' ++ cont) buf hb hp hd,
                processLines_cons_chunk parse isDone buf _ hb hp hd, iher]
              cases hq : (processLines parse isDone (p :: ps).dropLast).2 <;> simp [hq]
    · have hnew : '\n' ∉ buf ++ [ch] := by
        intro hx
        rcases List.mem_append.mp hx with h1 | h2
        · exact hbuf h1
        · simp at h2
          exact hch h2.symm
      rw [List.cons_append, decodeLoop, if_neg (fun hc => hch hc),
        ih (buf ++ [ch]) hnew, List.append_assoc]
      rfl

/-- The buffered chunk-by-chunk read loop of `chatStream` produces exactly
what the single-pass reference decoder produces on the concatenated
decoded text, whatever the split into arrival chunks. -/
theorem runStream_eq_decodeLoop {γ : Type} (parse : List Char → Option γ) (isDone : γ → Bool) :
    ∀ (chunks : List (List Char)) (buf : List Char), '\n' ∉ buf →
      runStream parse isDone chunks buf = decodeLoop parse isDone chunks.flatten buf := by
  intro chunks
  induction chunks with
  | nil => intro buf _; rfl
  | cons chunk rest ih =>
    intro buf hbuf
    rw [runStream]
    rw [List.flatten_cons, decodeLoop_chunk parse isDone rest.flatten chunk buf hbuf,
      ih ((splitNl (buf ++ chunk)).getLastD []) (splitNl_getLastD (buf ++ chunk))]

/-- The decoded chunk sequence depends only on the concatenated wire text,
not on how it was split into arrival chunks. -/
theorem chatStreamDecode_eq_decodeLoop {γ : Type} (parse : List Char → Option γ)
    (isDone : γ → Bool) (chunks : List (List Char)) :
    chatStreamDecode parse isDone chunks = decodeLoop parse isDone chunks.flatten [] :=
  runStream_eq_decodeLoop parse isDone chunks [] (by simp)

/-- Characterization of the decoder on wire text made of newline-terminated
complete lines followed by a newline-free trailing fragment: the output is
what the inner line loop emits on the lines, and — when no `done` chunk was
hit — the trailing fragment is flushed best-effort at end of stream. -/
theorem chatStreamDecode_characterization {γ : Type} (parse : List Char → Option γ)
    (isDone : γ → Bool) (chunks : List (List Char)) (lines : List (List Char))
    (tailBuf : List Char)
    (hlines : ∀ l ∈ lines, '\n' ∉ l) (htail : '\n' ∉ tailBuf)
    (hjoin : chunks.flatten = linesJoin lines ++ tailBuf) :
    chatStreamDecode parse isDone chunks
      = (if (processLines parse isDone lines).2 then (processLines parse isDone lines).1
        else (processLines parse isDone lines).1 ++ tailFlush parse tailBuf) := by
  rw [chatStreamDecode_eq_decodeLoop, hjoin]
  clear hjoin
  revert hlines
  induction lines with
  | nil =>
    intro _
    rw [show linesJoin [] = [] from rfl, List.nil_append]
    have hstep := decodeLoop_append_no_newline parse isDone tailBuf [] [] htail
    rw [List.append_nil, List.nil_append] at hstep
    rw [hstep]
    simp [processLines, decodeLoop]
  | cons l ls ih =>
    intro hlines
    have hl : '\n' ∉ l := hlines l (by simp)
    have hls : ∀ x ∈ ls, '\n' ∉ x := fun x hx => hlines x (by simp [hx])
    have hLJ : linesJoin (l :: ls) = l ++ '\n' :: linesJoin ls := by
      simp [linesJoin]
    rw [hLJ, List.append_assoc, List.cons_append,
      decodeLoop_append_no_newline parse isDone l ('\n' :: (linesJoin ls ++ tailBuf)) [] hl,
      List.nil_append]
    cases hb : isBlank l with
    | true =>
      rw [decodeLoop_newline_blank parse isDone (linesJoin ls ++ tailBuf) l hb,
        processLines_cons_blank parse isDone l ls hb]
      exact ih hls
    | false =>
      cases hp : parse l with
      | none =>
        rw [decodeLoop_newline_none parse isDone (linesJoin ls ++ tailBuf) l hb hp,
          processLines_cons_none parse isDone l ls hb hp]
        exact ih hls
      | some c =>
        cases hd : isDone c with
        | true =>
          rw [decodeLoop_newline_done parse isDone (linesJoin ls ++ tailBuf) l hb hp hd,
            processLines_cons_done parse isDone l ls hb hp hd]
          simp
        | false =>
          rw [decodeLoop_newline_chunk parse isDone (linesJoin ls ++ tailBuf) l hb hp hd,
            processLines_cons_chunk parse isDone l ls hb hp hd, ih hls]
          cases hq : (processLines parse isDone ls).2 <;> simp [hq]

/-- A line that fails to parse does not affect what the inner line loop
emits for the other lines. -/
theorem processLines_skip_bad {γ : Type} (parse : List Char → Option γ) (isDone : γ → Bool)
    (bad : List Char) (hbad : parse bad = none) :
    ∀ before after : List (List Char),
      processLines parse isDone (before ++ bad :: after)
        = processLines parse isDone (before ++ after) := by
  intro before
  induction before with
  | nil =>
    intro after
    rw [List.nil_append, List.nil_append]
    by_cases hb : isBlank bad = true
    · rw [processLines_cons_blank parse isDone bad after hb]
    · rw [processLines_cons_none parse isDone bad after
        (by revert hb; cases isBlank bad <;> simp) hbad]
  | cons l ls ih =>
    intro after
    rw [List.cons_append, List.cons_append]
    cases hb : isBlank l with
    | true =>
      rw [processLines_cons_blank parse isDone l (ls ++ bad :: after) hb,
        processLines_cons_blank parse isDone l (ls ++ after) hb, ih after]
    | false =>
      cases hp : parse l with
      | none =>
        rw [processLines_cons_none parse isDone l (ls ++ bad :: after) hb hp,
          processLines_cons_none parse isDone l (ls ++ after) hb hp, ih after]
      | some c =>
        cases hd : isDone c with
        | true =>
          rw [processLines_cons_done parse isDone l (ls ++ bad :: after) hb hp hd,
            processLines_cons_done parse isDone l (ls ++ after) hb hp hd]
        | false =>
          rw [processLines_cons_chunk parse isDone l (ls ++ bad :: after) hb hp hd,
            processLines_cons_chunk parse isDone l (ls ++ after) hb hp hd, ih after]

/-! ## Claim theorems about the stream decoder -/

/-- C1: for every wire stream whose decoded text is three newline-
terminated lines — two yielding non-`done` chunks and then a `done` line —
followed by arbitrary further bytes, and for every way of splitting that
text into arrival chunks, `chatStream`'s decoder emits exactly
`[parse(line1), parse(line2), doneChunk]` in the order the lines appeared,
and emission stops at the `done` chunk: everything after it, including any
buffered partial line, is discarded. -/
theorem chatStream_split_invariant_done {γ : Type} (parse : List Char → Option γ)
    (isDone : γ → Bool) (chunks : List (List Char)) (l1 l2 dl extra : List Char)
    (c1 c2 cd : γ)
    (hjoin : chunks.flatten = l1 ++ '\n' :: (l2 ++ '\n' :: (dl ++ '\n' :: extra)))
    (h1n : '\n' ∉ l1) (h2n : '\n' ∉ l2) (hdn : '\n' ∉ dl)
    (h1b : isBlank l1 = false) (h2b : isBlank l2 = false) (hdb : isBlank dl = false)
    (h1p : parse l1 = some c1) (h1d : isDone c1 = false)
    (h2p : parse l2 = some c2) (h2d : isDone c2 = false)
    (hdp : parse dl = some cd) (hdd : isDone cd = true) :
    chatStreamDecode parse isDone chunks = [c1, c2, cd] := by
  rw [chatStreamDecode_eq_decodeLoop, hjoin]
  have s1 := decodeLoop_append_no_newline parse isDone l1
    ('\n' :: (l2 ++ '\n' :: (dl ++ '\n' :: extra))) [] h1n
  rw [List.nil_append] at s1
  rw [s1, decodeLoop_newline_chunk parse isDone (l2 ++ '\n' :: (dl ++ '\n' :: extra)) l1
    h1b h1p h1d]
  have s2 := decodeLoop_append_no_newline parse isDone l2
    ('\n' :: (dl ++ '\n' :: extra)) [] h2n
  rw [List.nil_append] at s2
  rw [s2, decodeLoop_newline_chunk parse isDone (dl ++ '\n' :: extra) l2 h2b h2p h2d]
  have s3 := decodeLoop_append_no_newline parse isDone dl ('\n' :: extra) [] hdn
  rw [List.nil_append] at s3
  rw [s3, decodeLoop_newline_done parse isDone extra dl hdb hdp hdd]

/-- Witness for C1: the text `line1\nline2\n` + the done line + `\nEXTRA`,
split after the second byte, decodes to exactly the three chunks. -/
theorem chatStream_split_invariant_done_witness :
    chatStreamDecode
      (fun l => if l = "line1".toList then some 1
        else if l = "line2".toList then some 2
        else if l = "\x7b\"done\":true\x7d".toList then some 3 else (none : Option Nat))
      (fun n => n == 3)
      ["li".toList, "ne1\nline2\n\x7b\"done\":true\x7d\nEXTRA".toList]
      = [1, 2, 3] := by
  exact chatStream_split_invariant_done
    (fun l => if l = "line1".toList then some 1
      else if l = "line2".toList then some 2
      else if l = "\x7b\"done\":true\x7d".toList then some 3 else (none : Option Nat))
    (fun n => n == 3)
    ["li".toList, "ne1\nline2\n\x7b\"done\":true\x7d\nEXTRA".toList]
    "line1".toList "line2".toList "\x7b\"done\":true\x7d".toList "EXTRA".toList
    1 2 3
    (by decide) (by decide) (by decide) (by decide) (by decide) (by decide) (by decide)
    (by decide) (by decide) (by decide) (by decide) (by decide) (by decide)

/-- C4: a complete non-blank line that fails to parse is skipped without
aborting the stream or affecting the chunks emitted for the other lines —
the decoder's output equals its output on the same wire text with the
malformed line removed; and when the stream ends without a `done` chunk,
the one remaining buffered line is flushed best-effort as a trailing
chunk: emitted if it parses, silently ignored if it does not. -/
theorem chatStream_skip_malformed_and_tail {γ : Type} (parse : List Char → Option γ)
    (isDone : γ → Bool) (chunks chunks2 : List (List Char))
    (lines1 lines2 : List (List Char)) (bad tailBuf : List Char)
    (hl : ∀ l ∈ lines1 ++ lines2, '\n' ∉ l) (hbn : '\n' ∉ bad) (htn : '\n' ∉ tailBuf)
    (hbb : isBlank bad = false) (hbp : parse bad = none)
    (hj1 : chunks.flatten = linesJoin (lines1 ++ bad :: lines2) ++ tailBuf)
    (hj2 : chunks2.flatten = linesJoin (lines1 ++ lines2) ++ tailBuf) :
    chatStreamDecode parse isDone chunks = chatStreamDecode parse isDone chunks2
    ∧ ((processLines parse isDone (lines1 ++ lines2)).2 = false →
        chatStreamDecode parse isDone chunks
          = (processLines parse isDone (lines1 ++ lines2)).1 ++ tailFlush parse tailBuf)
    ∧ (∀ c, parse tailBuf = some c → isBlank tailBuf = false →
        tailFlush parse tailBuf = [c])
    ∧ (parse tailBuf = none → tailFlush parse tailBuf = []) := by
  have hl1 : ∀ l ∈ lines1 ++ bad :: lines2, '\n' ∉ l := by
    intro l hx
    rcases List.mem_append.mp hx with h1 | h2
    · exact hl l (List.mem_append.mpr (Or.inl h1))
    · rcases List.mem_cons.mp h2 with rfl | h3
      · exact hbn
      · exact hl l (List.mem_append.mpr (Or.inr h3))
  have hc1 := chatStreamDecode_characterization parse isDone chunks
    (lines1 ++ bad :: lines2) tailBuf hl1 htn hj1
  have hc2 := chatStreamDecode_characterization parse isDone chunks2
    (lines1 ++ lines2) tailBuf hl htn hj2
  have hskip := processLines_skip_bad parse isDone bad hbp lines1 lines2
  refine ⟨?_, ?_, ?_, ?_⟩
  · rw [hc1, hc2, hskip]
  · intro hfin
    rw [hc1, hskip, hfin]
    simp
  · intro c hc hb
    rw [tailFlush, if_neg (by rw [hb]; exact Bool.false_ne_true), hc]
  · intro hc
    rw [tailFlush]
    by_cases hb : isBlank tailBuf = true
    · rw [if_pos hb]
    · rw [if_neg hb, hc]

/-- Witness for C4: the wire text `a\n!!\nb\nc` (with `!!` malformed and
`c` a trailing buffered line) decodes to the same chunks as `a\nb\nc`, and
the trailing line is emitted after the others. -/
theorem chatStream_skip_malformed_and_tail_witness :
    chatStreamDecode
      (fun l => if l = "a".toList then some 1
        else if l = "b".toList then some 2
        else if l = "c".toList then some 4 else (none : Option Nat))
      (fun n => n == 3) ["a\n!!\nb\nc".toList]
      = chatStreamDecode
        (fun l => if l = "a".toList then some 1
          else if l = "b".toList then some 2
          else if l = "c".toList then some 4 else (none : Option Nat))
        (fun n => n == 3) ["a\nb".toList, "\nc".toList]
    ∧ chatStreamDecode
        (fun l => if l = "a".toList then some 1
          else if l = "b".toList then some 2
          else if l = "c".toList then some 4 else (none : Option Nat))
        (fun n => n == 3) ["a\n!!\nb\nc".toList]
      = [1, 2] ++ [4] := by
  have h := chatStream_skip_malformed_and_tail
    (fun l => if l = "a".toList then some 1
      else if l = "b".toList then some 2
      else if l = "c".toList then some 4 else (none : Option Nat))
    (fun n => n == 3) ["a\n!!\nb\nc".toList] ["a\nb".toList, "\nc".toList]
    ["a".toList] ["b".toList] "!!".toList "c".toList
    (by decide) (by decide) (by decide) (by decide) (by decide) (by decide) (by decide)
  exact ⟨h.1, h.2.1 (by decide)⟩
